import Mathlib

/-!
Shallow embedding of the WebRTC signaling server in src/index.js.

The server keeps a module-level object `connections` mapping client-chosen
identifiers to live websocket connections, and installs three event handlers
on every accepted connection: onMessage, onClose, onError.

Modelling decisions, all taken from the JavaScript source:

* A connection handle is an abstract value (`Conn := Nat`); the websocket
  library guarantees handles are distinct objects, and `===` on them is
  plain equality of handles.
* `JSON.parse` is part of the JavaScript standard library, not of this
  repository, so an inbound text frame is modelled as the result of that
  call: `none` when the text is not valid JSON (in which case the uncaught
  exception from `JSON.parse` propagates out of `onMessage`), `some j`
  otherwise.  `JSON.stringify` is likewise external; a frame written with
  `sendUTF(JSON.stringify(x))` is modelled as sending the JSON value `x`.
* JSON numbers are modelled as integers.  No claim involves non-integral
  numbers; where a number is coerced to a string, `Int.repr` agrees with
  the JavaScript rendering of integral numbers of ordinary size.
* `connections` is a plain object literal, so property reads such as
  `connections[id]` see properties inherited from Object.prototype.  The
  registry itself is an insertion-ordered association list (JavaScript
  preserves insertion order for non-index string keys, and orders
  array-index keys first; `jsEntries` reproduces that order for
  `Object.entries`).  `jsIndex` models an indexed read including the
  prototype chain: a hit on an inherited Object.prototype property yields
  `JsProp.proto`, a truthy value that is not a connection.  An inherited
  property can never be overwritten by registration because the collision
  check `if (connections[id])` is truthy for it, so the assignment line is
  unreachable for such keys.
* String indices: JavaScript `slice` and `length` count UTF-16 code units
  while `List Char` counts code points.  They agree on all strings free of
  surrogate pairs; every concrete input below is ASCII.
* The keys the code reads from parsed values (`type`, `payload`, `id`,
  `source`, `target`) are not Object.prototype properties, so reading them
  from a non-object JSON value yields `undefined` (`none`).
* A JavaScript exception escaping a handler is modelled as
  `Except.error`; the state-transition function keeps the registry
  unchanged in that case, exactly what an uncaught throw does.
-/

abbrev Conn := Nat

inductive Json where
  | null
  | bool (b : Bool)
  | num (n : Int)
  | str (s : String)
  | arr (elems : List Json)
  | obj (fields : List (String × Json))

/-- Kinds of JavaScript runtime exceptions thrown by the handlers. -/
inductive JsError where
  | parseError
  | typeError
deriving DecidableEq

abbrev Reg := List (String × Conn)

/-- Property read on a parsed JSON value: own properties of a parsed object;
`undefined` (none) on every other value for the keys this code reads. -/
def jsGet : Json → String → Option Json
  | Json.obj fields, k => (fields.find? (fun e => e.1 == k)).map (fun e => e.2)
  | _, _ => none

/-- JavaScript truthiness of a JSON value. -/
def jsTruthy : Json → Bool
  | Json.null => false
  | Json.bool b => b
  | Json.num n => n != 0
  | Json.str s => s != ""
  | Json.arr _ => true
  | Json.obj _ => true

mutual

/-- JavaScript `String(v)` for a parsed JSON value.  Arrays join their
elements with commas (null elements become empty), plain objects render as
the generic object tag. -/
def jsToString : Json → String
  | Json.null => "null"
  | Json.bool true => "true"
  | Json.bool false => "false"
  | Json.num n => toString n
  | Json.str s => s
  | Json.arr xs => String.intercalate "," (jsArrElems xs)
  | Json.obj _ => "[object Object]"

/-- Element strings used by Array.prototype.join: null renders empty. -/
def jsArrElems : List Json → List String
  | [] => []
  | Json.null :: xs => "" :: jsArrElems xs
  | x :: xs => jsToString x :: jsArrElems xs

end

/-- Coercion of a possibly-undefined value to a property key or template
string, as in the indexed reads of `connections` and the error message
text. -/
def jsStr : Option Json → String
  | none => "undefined"
  | some j => jsToString j

/-- Own-along-with-inherited property names of Object.prototype, the keys
for which `connections[k]` is truthy even though no registration stored
them. -/
def protoKeys : List String :=
  ["constructor", "hasOwnProperty", "isPrototypeOf", "propertyIsEnumerable",
   "toLocaleString", "toString", "valueOf", "__defineGetter__",
   "__defineSetter__", "__lookupGetter__", "__lookupSetter__", "__proto__"]

/-- Result of the indexed read `connections[k]`: an own property (a
registered connection), an inherited Object.prototype member, or
`undefined`. -/
inductive JsProp where
  | conn (c : Conn)
  | proto
  | undef
deriving DecidableEq

/-- `connections[k]`, including the prototype chain of the object literal. -/
def jsIndex (reg : Reg) (k : String) : JsProp :=
  match reg.find? (fun e => e.1 == k) with
  | some e => JsProp.conn e.2
  | none => if k ∈ protoKeys then JsProp.proto else JsProp.undef

/-- `payload.id.slice(0, 5)`: strings slice to their first five characters,
arrays slice to their first five elements (later coerced to a string key);
any other receiver has no `slice` method and the call throws. -/
def jsSlice5 : Option Json → Except JsError String
  | some (Json.str s) => Except.ok (String.mk (s.data.take 5))
  | some (Json.arr xs) => Except.ok (jsToString (Json.arr (xs.take 5)))
  | _ => Except.error JsError.typeError

/-- What the server does in reaction to one event: frames written with
`sendUTF` (as pre-serialization JSON values) and connections it called
`close()` on. -/
structure Output where
  sends : List (Conn × Json)
  closes : List Conn

def noOutput : Output := { sends := [], closes := [] }

/-- `handleRegisterMessage(connection, payload)` (src/index.js lines 92-105):
truncate `payload.id`, refuse and close on a truthy `connections[id]`,
otherwise store the connection under the id. -/
def handleRegisterMessage (reg : Reg) (c : Conn) (payload : Json) :
    Except JsError (Reg × Output) :=
  match jsSlice5 (jsGet payload "id") with
  | Except.error e => Except.error e
  | Except.ok id =>
    match jsIndex reg id with
    | JsProp.undef => Except.ok (reg ++ [(id, c)], noOutput)
    | _ => Except.ok (reg, { sends := [], closes := [c] })

/-- The error envelope built for an unknown target: type is the string
error, message is the string Connection-space-target-space-unknown. -/
def errorResponse (target : Option Json) : Json :=
  Json.obj [("type", Json.str "error"),
            ("message", Json.str ("Connection " ++ jsStr target ++ " unknown"))]

/-- `handleSignalMessage(connection, payload)` (src/index.js lines 107-130):
look up `payload.source` and `payload.target`, close the sender on an
identity mismatch, answer with an error envelope when the target read is
falsy, otherwise forward the payload.  A truthy target read that is not a
connection (an inherited Object.prototype member) has no `sendUTF` method,
so the forwarding call throws. -/
def handleSignalMessage (reg : Reg) (c : Conn) (payload : Json) :
    Except JsError Output :=
  let source := jsGet payload "source"
  let target := jsGet payload "target"
  let targetConnection := jsIndex reg (jsStr target)
  let sourceConnection := jsIndex reg (jsStr source)
  if sourceConnection = JsProp.conn c then
    match targetConnection with
    | JsProp.undef => Except.ok { sends := [(c, errorResponse target)], closes := [] }
    | JsProp.conn t => Except.ok { sends := [(t, payload)], closes := [] }
    | JsProp.proto => Except.error JsError.typeError
  else
    Except.ok { sends := [], closes := [c] }

/-- An inbound websocket frame: a non-utf8 frame, or a text frame given by
the result of `JSON.parse` on its text (`none` when the text is not valid
JSON). -/
inductive Frame where
  | nonUtf8
  | utf8 (parsed : Option Json)

/-- `onMessage(message)` (src/index.js lines 76-90): ignore non-text frames,
parse (propagating the throw on invalid JSON, and the TypeError from
destructuring when the text parses to `null`), drop frames whose type is
not `register`/`signal` or whose payload is falsy, then dispatch to the
handler table. -/
def onMessage (reg : Reg) (c : Conn) (f : Frame) : Except JsError (Reg × Output) :=
  match f with
  | Frame.nonUtf8 => Except.ok (reg, noOutput)
  | Frame.utf8 none => Except.error JsError.parseError
  | Frame.utf8 (some Json.null) => Except.error JsError.typeError
  | Frame.utf8 (some j) =>
    match jsGet j "type", jsGet j "payload" with
    | some (Json.str s), some p =>
      if jsTruthy p then
        if s == "register" then handleRegisterMessage reg c p
        else if s == "signal" then
          (handleSignalMessage reg c p).map (fun o => (reg, o))
        else Except.ok (reg, noOutput)
      else Except.ok (reg, noOutput)
    | _, _ => Except.ok (reg, noOutput)

/-- A canonical array-index property key: the decimal rendering of an
integer below 2^32 - 1.  JavaScript object iteration lists such keys first,
in ascending numeric order. -/
def isArrayIndexKey (s : String) : Bool :=
  !s.data.isEmpty && s.data.all Char.isDigit &&
    (s == "0" || s.data.head? != some (Char.ofNat 48)) &&
    decide ((s.toNat?).getD 0 < 4294967295)

def keyNat (s : String) : Nat := (s.toNat?).getD 0

def insertByKey (e : String × Conn) : List (String × Conn) → List (String × Conn)
  | [] => [e]
  | f :: fs =>
    if keyNat e.1 ≤ keyNat f.1 then e :: f :: fs else f :: insertByKey e fs

def sortNumeric : List (String × Conn) → List (String × Conn)
  | [] => []
  | e :: es => insertByKey e (sortNumeric es)

/-- `Object.entries(connections)`: array-index keys first in numeric order,
then the remaining string keys in insertion order. -/
def jsEntries (reg : Reg) : List (String × Conn) :=
  sortNumeric (reg.filter (fun e => isArrayIndexKey e.1)) ++
    reg.filter (fun e => !isArrayIndexKey e.1)

/-- `getIdFromConnection(connection)` (src/index.js lines 155-161): find the
first registry entry holding this connection.  When the connection never
registered, `find` yields `undefined` and the array destructuring
`const [id] = undefined` throws a TypeError. -/
def getIdFromConnection (reg : Reg) (c : Conn) : Except JsError String :=
  match (jsEntries reg).find? (fun e => e.2 == c) with
  | some e => Except.ok e.1
  | none => Except.error JsError.typeError

/-- `onClose(reasonCode, description)` (src/index.js lines 132-138): resolve
the id of the closing connection and delete that key. -/
def onClose (reg : Reg) (c : Conn) : Except JsError Reg :=
  match getIdFromConnection reg c with
  | Except.error e => Except.error e
  | Except.ok id => Except.ok (reg.eraseP (fun e => e.1 == id))

/-- `onError(error)` (src/index.js lines 140-144): resolve the id of the
erroring connection and log it; the registry is not touched. -/
def onError (reg : Reg) (c : Conn) : Except JsError Reg :=
  match getIdFromConnection reg c with
  | Except.error e => Except.error e
  | Except.ok _ => Except.ok reg

/-- Server state: the registry plus bookkeeping of which connection handles
the transport layer has accepted and which have had their close event. -/
structure SState where
  reg : Reg
  accepted : List Conn
  closed : List Conn
deriving DecidableEq

/-- One event delivered by the transport layer to the server. -/
inductive Event where
  | accept (c : Conn)
  | msg (c : Conn) (f : Frame)
  | closeEv (c : Conn)
  | errorEv (c : Conn)

def initState : SState := { reg := [], accepted := [], closed := [] }

/-- Effect of one event on the server state.  A handler that throws leaves
the registry exactly as it was (the exception aborts the handler before any
further mutation). -/
def stepState (s : SState) : Event → SState
  | Event.accept c => { s with accepted := c :: s.accepted }
  | Event.msg c f =>
    match onMessage s.reg c f with
    | Except.ok (r, _) => { s with reg := r }
    | Except.error _ => s
  | Event.closeEv c =>
    { reg :=
        match onClose s.reg c with
        | Except.ok r => r
        | Except.error _ => s.reg,
      accepted := s.accepted,
      closed := c :: s.closed }
  | Event.errorEv _ => s

/-- Whether a frame would dispatch to the register handler. -/
def isRegisterFrame : Frame → Bool
  | Frame.utf8 (some j) =>
    match jsGet j "type" with
    | some (Json.str s) => s == "register"
    | _ => false
  | _ => false

/-- Transport-level sanity of an event: handles are accepted once, and a
connection produces frames, a close event and error events only while
accepted, the close event at most once. -/
def wfEvent (s : SState) : Event → Bool
  | Event.accept c => !s.accepted.contains c
  | Event.msg c _ => s.accepted.contains c && !s.closed.contains c
  | Event.closeEv c => s.accepted.contains c && !s.closed.contains c
  | Event.errorEv c => s.accepted.contains c

/-- `wfEvent` strengthened by the discipline of section 4.5 of the spec: a
connection already stored in the registry sends no further register
envelope. -/
def wfOnceEvent (s : SState) (e : Event) : Bool :=
  wfEvent s e &&
    match e with
    | Event.msg c f => !(s.reg.map Prod.snd).contains c || !isRegisterFrame f
    | _ => true

def wfTrace : SState → List Event → Bool
  | _, [] => true
  | s, e :: es => wfEvent s e && wfTrace (stepState s e) es

def wfTraceOnce : SState → List Event → Bool
  | _, [] => true
  | s, e :: es => wfOnceEvent s e && wfTraceOnce (stepState s e) es

def runFrom (s : SState) : List Event → SState
  | [] => s
  | e :: es => runFrom (stepState s e) es

/-- States the server can be in after some transport-well-formed sequence of
events. -/
def Reachable (s : SState) : Prop :=
  ∃ t, wfTrace initState t = true ∧ runFrom initState t = s

/-- Reachability under the additional register-once discipline. -/
def ReachableOnce (s : SState) : Prop :=
  ∃ t, wfTraceOnce initState t = true ∧ runFrom initState t = s

lemma mem_insertByKey (x e : String × Conn) (l : List (String × Conn)) :
    x ∈ insertByKey e l ↔ x = e ∨ x ∈ l := by
  induction l with
  | nil => simp [insertByKey]
  | cons f fs ih =>
    simp only [insertByKey]
    split
    · simp [List.mem_cons]
    · simp only [List.mem_cons, ih]
      tauto

lemma mem_sortNumeric (x : String × Conn) (l : List (String × Conn)) :
    x ∈ sortNumeric l ↔ x ∈ l := by
  induction l with
  | nil => simp [sortNumeric]
  | cons e es ih => simp [sortNumeric, mem_insertByKey, ih]

lemma mem_jsEntries (x : String × Conn) (reg : Reg) :
    x ∈ jsEntries reg ↔ x ∈ reg := by
  simp only [jsEntries, List.mem_append, mem_sortNumeric, List.mem_filter]
  by_cases h : isArrayIndexKey x.1 <;> simp [h]

lemma getId_ok {reg : Reg} {c : Conn} {i : String}
    (h : getIdFromConnection reg c = Except.ok i) :
    ∃ e, e ∈ reg ∧ e.2 = c ∧ e.1 = i := by
  unfold getIdFromConnection at h
  rcases hf : (jsEntries reg).find? (fun e => e.2 == c) with _ | e
  · rw [hf] at h
    cases h
  · rw [hf] at h
    simp only [Except.ok.injEq] at h
    refine ⟨e, (mem_jsEntries e reg).mp (List.mem_of_find?_eq_some hf), ?_, h⟩
    simpa using List.find?_some hf

lemma getId_some_of_mem {reg : Reg} {c : Conn} {e : String × Conn}
    (he : e ∈ reg) (hc : e.2 = c) :
    ∃ i, getIdFromConnection reg c = Except.ok i := by
  unfold getIdFromConnection
  have hs : ((jsEntries reg).find? (fun x => x.2 == c)).isSome = true := by
    rw [List.find?_isSome]
    exact ⟨e, (mem_jsEntries e reg).mpr he, by simp [hc]⟩
  rcases ho : (jsEntries reg).find? (fun x => x.2 == c) with _ | f
  · rw [ho] at hs
    cases hs
  · exact ⟨f.1, by rw [ho]⟩

lemma getId_err {reg : Reg} {c : Conn} (h : ∀ e ∈ reg, e.2 ≠ c) :
    getIdFromConnection reg c = Except.error JsError.typeError := by
  unfold getIdFromConnection
  have hn : (jsEntries reg).find? (fun e => e.2 == c) = none := by
    rw [List.find?_eq_none]
    intro x hx
    simpa using h x ((mem_jsEntries x reg).mp hx)
  rw [hn]

lemma eraseP_key_ne {reg : Reg} {k : String} (hn : (reg.map Prod.fst).Nodup) :
    ∀ x ∈ reg.eraseP (fun y => y.1 == k), x.1 ≠ k := by
  induction reg with
  | nil => simp
  | cons h t ih =>
    rw [List.eraseP_cons]
    rw [List.map_cons, List.nodup_cons] at hn
    cases hh : (h.1 == k) with
    | true =>
      simp only [cond_true]
      intro x hx hxk
      have hk : h.1 = k := by simpa using hh
      exact hn.1 (by
        rw [hk, ← hxk]
        exact List.mem_map_of_mem Prod.fst hx)
    | false =>
      simp only [cond_false]
      intro x hx
      rcases List.mem_cons.mp hx with rfl | hx2
      · simpa using hh
      · exact ih hn.2 x hx2

lemma jsIndex_undef {reg : Reg} {k : String} (h : jsIndex reg k = JsProp.undef) :
    reg.find? (fun e => e.1 == k) = none := by
  unfold jsIndex at h
  rcases hf : reg.find? (fun e => e.1 == k) with _ | e
  · exact hf
  · rw [hf] at h
    cases h

lemma jsIndex_of_find_none {reg : Reg} {k : String}
    (hf : reg.find? (fun e => e.1 == k) = none) (hp : k ∉ protoKeys) :
    jsIndex reg k = JsProp.undef := by
  unfold jsIndex
  rw [hf]
  simp [hp]

lemma onMessage_reg_shape {reg : Reg} {c : Conn} {f : Frame} {r : Reg} {o : Output}
    (h : onMessage reg c f = Except.ok (r, o)) :
    r = reg ∨ ∃ id, reg.find? (fun e => e.1 == id) = none ∧
      r = reg ++ [(id, c)] ∧ isRegisterFrame f = true := by
  cases f with
  | nonUtf8 =>
    simp only [onMessage, Except.ok.injEq, Prod.mk.injEq] at h
    exact Or.inl h.1.symm
  | utf8 oj =>
    cases oj with
    | none => cases h
    | some j =>
      cases j with
      | null => cases h
      | bool b =>
        simp only [onMessage, jsGet, Except.ok.injEq, Prod.mk.injEq] at h
        exact Or.inl h.1.symm
      | num n =>
        simp only [onMessage, jsGet, Except.ok.injEq, Prod.mk.injEq] at h
        exact Or.inl h.1.symm
      | str s =>
        simp only [onMessage, jsGet, Except.ok.injEq, Prod.mk.injEq] at h
        exact Or.inl h.1.symm
      | arr xs =>
        simp only [onMessage, jsGet, Except.ok.injEq, Prod.mk.injEq] at h
        exact Or.inl h.1.symm
      | obj fields =>
        simp only [onMessage] at h
        split at h
        · rename_i s p hty hpl
          split at h
          · rename_i htr
            split at h
            · rename_i hreg
              unfold handleRegisterMessage at h
              split at h
              · cases h
              · rename_i id hsl
                split at h
                · rename_i hidx
                  simp only [Except.ok.injEq, Prod.mk.injEq] at h
                  refine Or.inr ⟨id, jsIndex_undef hidx, h.1.symm, ?_⟩
                  simp [isRegisterFrame, hty, hreg]
                · simp only [Except.ok.injEq, Prod.mk.injEq] at h
                  exact Or.inl h.1.symm
            · split at h
              · rcases hhs : handleSignalMessage reg c p with e | o2
                all_goals rw [hhs] at h
                · cases h
                · simp only [Except.map, Except.ok.injEq, Prod.mk.injEq] at h
                  exact Or.inl h.1.symm
              · simp only [Except.ok.injEq, Prod.mk.injEq] at h
                exact Or.inl h.1.symm
          · simp only [Except.ok.injEq, Prod.mk.injEq] at h
            exact Or.inl h.1.symm
        · simp only [Except.ok.injEq, Prod.mk.injEq] at h
          exact Or.inl h.1.symm

lemma onClose_ok_shape {reg : Reg} {c : Conn} {r : Reg}
    (h : onClose reg c = Except.ok r) :
    ∃ e, e ∈ reg ∧ e.2 = c ∧ r = reg.eraseP (fun x => x.1 == e.1) := by
  unfold onClose at h
  rcases hg : getIdFromConnection reg c with _ | i
  · rw [hg] at h
    cases h
  · rw [hg] at h
    simp only [Except.ok.injEq] at h
    obtain ⟨e, he, hc, hi⟩ := getId_ok hg
    exact ⟨e, he, hc, by rw [hi, h]⟩

lemma onClose_err {reg : Reg} {c : Conn} (h : ∀ e ∈ reg, e.2 ≠ c) :
    onClose reg c = Except.error JsError.typeError := by
  unfold onClose
  rw [getId_err h]

lemma not_mem_keys_of_find_none {reg : Reg} {id : String}
    (hf : reg.find? (fun e => e.1 == id) = none) : id ∉ reg.map Prod.fst := by
  intro hmem
  obtain ⟨e, he, hei⟩ := List.mem_map.mp hmem
  have := List.find?_eq_none.mp hf e he
  simp [hei] at this

lemma keys_nodup_step (s : SState) (e : Event)
    (h : (s.reg.map Prod.fst).Nodup) :
    ((stepState s e).reg.map Prod.fst).Nodup := by
  cases e with
  | accept c => simpa [stepState] using h
  | errorEv c => simpa [stepState] using h
  | msg c f =>
    simp only [stepState]
    rcases hm : onMessage s.reg c f with e | pr
    · exact h
    · rcases pr with ⟨r, o⟩
      rcases onMessage_reg_shape hm with rfl | ⟨id, hf, rfl, -⟩
      · exact h
      · simp only [List.map_append, List.map_cons, List.map_nil]
        rw [List.nodup_append]
        refine ⟨h, List.nodup_singleton id, ?_⟩
        intro x hx hx1
        rw [List.mem_singleton] at hx1
        subst hx1
        exact not_mem_keys_of_find_none hf hx
  | closeEv c =>
    simp only [stepState]
    rcases hc : onClose s.reg c with e | r
    · exact h
    · obtain ⟨e, -, -, rfl⟩ := onClose_ok_shape hc
      exact List.Nodup.sublist (List.Sublist.map Prod.fst (List.eraseP_sublist s.reg)) h

lemma keys_nodup_run : ∀ (t : List Event) (s : SState),
    (s.reg.map Prod.fst).Nodup → (((runFrom s t).reg).map Prod.fst).Nodup := by
  intro t
  induction t with
  | nil => intro s h; exact h
  | cons e es ih => intro s h; exact ih (stepState s e) (keys_nodup_step s e h)

lemma reachable_keys_nodup {s : SState} (h : Reachable s) :
    (s.reg.map Prod.fst).Nodup := by
  obtain ⟨t, -, hr⟩ := h
  rw [← hr]
  exact keys_nodup_run t initState (by simp [initState])

lemma nodup_filter_key_len {l : Reg} {i : String}
    (hn : (l.map Prod.fst).Nodup) :
    (l.filter (fun e => e.1 == i)).length ≤ 1 := by
  induction l with
  | nil => simp
  | cons h t ih =>
    rw [List.map_cons, List.nodup_cons] at hn
    rw [List.filter_cons]
    cases hh : (h.1 == i) with
    | false => simpa using ih hn.2
    | true =>
      simp only [if_pos rfl, cond_true, List.length_cons]
      have hi : h.1 = i := by simpa using hh
      have : t.filter (fun e => e.1 == i) = [] := by
        rw [List.filter_eq_nil_iff]
        intro x hx hxi
        exact hn.1 (by
          rw [hi, ← show x.1 = i by simpa using hxi]
          exact List.mem_map_of_mem Prod.fst hx)
      simp [this]

lemma contains_true_iff (l : List Conn) (c : Conn) : l.contains c = true ↔ c ∈ l := by
  unfold List.contains
  exact List.elem_iff

lemma not_contains_iff (l : List Conn) (c : Conn) : (!l.contains c) = true ↔ c ∉ l := by
  simp [List.contains, List.elem_iff]

lemma getId_err_shape {reg : Reg} {c : Conn} {err : JsError}
    (h : getIdFromConnection reg c = Except.error err) : ∀ x ∈ reg, x.2 ≠ c := by
  unfold getIdFromConnection at h
  rcases hf : (jsEntries reg).find? (fun e => e.2 == c) with _ | e
  · intro x hx hxc
    have := List.find?_eq_none.mp hf x ((mem_jsEntries x reg).mpr hx)
    simp [hxc] at this
  · rw [hf] at h
    cases h

lemma onClose_err_shape {reg : Reg} {c : Conn} {err : JsError}
    (h : onClose reg c = Except.error err) : ∀ x ∈ reg, x.2 ≠ c := by
  unfold onClose at h
  rcases hg : getIdFromConnection reg c with e2 | i
  · exact getId_err_shape hg
  · rw [hg] at h
    cases h

/-- Registry health: unique keys, each connection stored at most once, and
every stored connection accepted with its close event still pending. -/
def InvOnce (s : SState) : Prop :=
  (s.reg.map Prod.fst).Nodup ∧ (s.reg.map Prod.snd).Nodup ∧
    ∀ e ∈ s.reg, e.2 ∈ s.accepted ∧ e.2 ∉ s.closed

lemma inv_once_step {s : SState} {ev : Event} (hI : InvOnce s)
    (hw : wfOnceEvent s ev = true) : InvOnce (stepState s ev) := by
  obtain ⟨hk, hv, ho⟩ := hI
  have main : ((stepState s ev).reg.map Prod.snd).Nodup ∧
      ∀ e ∈ (stepState s ev).reg,
        e.2 ∈ (stepState s ev).accepted ∧ e.2 ∉ (stepState s ev).closed := by
    cases ev with
    | accept c =>
      simp only [stepState]
      refine ⟨hv, ?_⟩
      intro e he
      exact ⟨List.mem_cons_of_mem c (ho e he).1, (ho e he).2⟩
    | errorEv c => exact ⟨hv, ho⟩
    | msg c f =>
      simp only [wfOnceEvent, wfEvent, Bool.and_eq_true] at hw
      obtain ⟨⟨hacc, hncl⟩, honce⟩ := hw
      simp only [stepState]
      rcases hm : onMessage s.reg c f with err | pr
      · exact ⟨hv, ho⟩
      rcases pr with ⟨r, o⟩
      rcases onMessage_reg_shape hm with rfl | ⟨id, hf, rfl, hrf⟩
      · exact ⟨hv, ho⟩
      have hcv : c ∉ s.reg.map Prod.snd := by
        rw [hrf] at honce
        simp only [Bool.not_true, Bool.or_false] at honce
        exact (not_contains_iff _ c).mp honce
      constructor
      · rw [List.map_append, List.nodup_append]
        refine ⟨hv, by simp, ?_⟩
        intro x hx hx2
        simp only [List.map_cons, List.map_nil, List.mem_singleton] at hx2
        subst hx2
        exact hcv hx
      · intro e he
        rcases List.mem_append.mp he with he1 | he2
        · exact ⟨(ho e he1).1, (ho e he1).2⟩
        · rw [List.mem_singleton] at he2
          subst he2
          exact ⟨(contains_true_iff _ c).mp hacc, (not_contains_iff _ c).mp hncl⟩
    | closeEv c =>
      simp only [wfOnceEvent, wfEvent, Bool.and_eq_true, Bool.and_true] at hw
      simp only [stepState]
      rcases hc : onClose s.reg c with err | r
      · refine ⟨hv, ?_⟩
        intro e he
        refine ⟨(ho e he).1, ?_⟩
        intro hcl
        rcases List.mem_cons.mp hcl with hec | hecl
        · exact onClose_err_shape hc e he hec
        · exact (ho e he).2 hecl
      · obtain ⟨e0, he0, he0c, rfl⟩ := onClose_ok_shape hc
        refine ⟨List.Nodup.sublist
          (List.Sublist.map Prod.snd (List.eraseP_sublist s.reg)) hv, ?_⟩
        intro x hx
        have hxreg : x ∈ s.reg := (List.eraseP_sublist s.reg).subset hx
        refine ⟨(ho x hxreg).1, ?_⟩
        intro hcl
        rcases List.mem_cons.mp hcl with hxc | hxcl
        · have hxe : x = e0 :=
            List.inj_on_of_nodup_map hv hxreg he0 (by rw [hxc, he0c])
          exact (eraseP_key_ne hk x hx) (by rw [hxe])
        · exact (ho x hxreg).2 hxcl
  exact ⟨keys_nodup_step s ev hk, main.1, main.2⟩

lemma inv_once_run : ∀ (t : List Event) (s : SState),
    InvOnce s → wfTraceOnce s t = true → InvOnce (runFrom s t) := by
  intro t
  induction t with
  | nil => intro s h _; exact h
  | cons e es ih =>
    intro s h hw
    rw [wfTraceOnce, Bool.and_eq_true] at hw
    exact ih (stepState s e) (inv_once_step h hw.1) hw.2

lemma reachable_once_inv {s : SState} (h : ReachableOnce s) : InvOnce s := by
  obtain ⟨t, hw, hr⟩ := h
  rw [← hr]
  exact inv_once_run t initState ⟨by simp [initState], by simp [initState], by simp [initState]⟩ hw

lemma protoKeys_length {k : String} (hk : k ∈ protoKeys) : 7 ≤ k.length := by
  simp only [protoKeys, List.mem_cons, List.not_mem_nil, or_false] at hk
  rcases hk with rfl | rfl | rfl | rfl | rfl | rfl | rfl | rfl | rfl | rfl | rfl | rfl <;> decide

lemma short_not_proto {k : String} (hk : k.length ≤ 5) : k ∉ protoKeys := by
  intro hmem
  have := protoKeys_length hmem
  omega

lemma take5_length (s : String) : (String.mk (s.data.take 5)).length ≤ 5 := by
  show (s.data.take 5).length ≤ 5
  rw [List.length_take]
  omega

lemma onClose_single {reg : Reg} {c : Conn} {i : String}
    (hn : (reg.map Prod.fst).Nodup) (hm : (i, c) ∈ reg)
    (ho : ∀ e ∈ reg, e.2 = c → e.1 = i) :
    onClose reg c = Except.ok (reg.eraseP (fun x => x.1 == i)) ∧
      (reg.eraseP (fun x => x.1 == i)).find? (fun e => e.1 == i) = none := by
  constructor
  · obtain ⟨i2, hg⟩ := getId_some_of_mem hm rfl
    obtain ⟨e, he, hec, hei⟩ := getId_ok hg
    have hii : i2 = i := by
      rw [← hei]
      exact ho e he hec
    unfold onClose
    rw [hg, hii]
  · rw [List.find?_eq_none]
    intro x hx
    simpa using eraseP_key_ne hn x hx

lemma register_success {reg : Reg} {c : Conn} {p : Json} {i : String}
    (hid : jsSlice5 (jsGet p "id") = Except.ok i)
    (hf : reg.find? (fun e => e.1 == i) = none)
    (hp : i ∉ protoKeys) :
    handleRegisterMessage reg c p = Except.ok (reg ++ [(i, c)], noOutput) := by
  unfold handleRegisterMessage
  simp only [hid]
  rw [jsIndex_of_find_none hf hp]

lemma register_collision {reg : Reg} {c d : Conn} {p : Json} {i : String}
    (hid : jsSlice5 (jsGet p "id") = Except.ok i)
    (hx : jsIndex reg i = JsProp.conn d) :
    handleRegisterMessage reg c p = Except.ok (reg, { sends := [], closes := [c] }) := by
  unfold handleRegisterMessage
  simp only [hid, hx]

def regPayload (i : String) : Json := Json.obj [("id", Json.str i)]

def regFrame (i : String) : Frame :=
  Frame.utf8 (some (Json.obj [("type", Json.str "register"),
                              ("payload", regPayload i)]))

def sigPayload (s t : String) : Json :=
  Json.obj [("source", Json.str s), ("target", Json.str t)]

/-- C1: in every reachable state each identifier is bound to at most one
session, and a register envelope whose truncated identifier is already a
registry key makes the server close the new connection, send nothing to
anybody, and leave the registry (the existing entry included) unchanged. -/
theorem c1_uniqueness_and_collision :
    (∀ s : SState, Reachable s → ∀ i : String,
        (s.reg.filter (fun e => e.1 == i)).length ≤ 1) ∧
    (∀ (reg : Reg) (c : Conn) (j p : Json) (id : String) (d : Conn),
        jsGet j "type" = some (Json.str "register") →
        jsGet j "payload" = some p →
        jsTruthy p = true →
        jsSlice5 (jsGet p "id") = Except.ok id →
        jsIndex reg id = JsProp.conn d →
        onMessage reg c (Frame.utf8 (some j)) =
          Except.ok (reg, { sends := [], closes := [c] })) := by
  constructor
  · intro s hs i
    exact nodup_filter_key_len (reachable_keys_nodup hs)
  · intro reg c j p id d hty hpl htr hid hx
    cases j with
    | null => simp [jsGet] at hty
    | bool b => simp [jsGet] at hty
    | num n => simp [jsGet] at hty
    | str s2 => simp [jsGet] at hty
    | arr xs => simp [jsGet] at hty
    | obj fields =>
      simp only [onMessage, hty, hpl, htr, if_true]
      simp only [show (("register" : String) == "register") = true from rfl, if_true]
      exact register_collision hid hx

/-- C1 witness: a concrete reachable state with a bound identifier, and a
concrete colliding registration that is refused with a close. -/
theorem c1_witness :
    (([(("a" : String), (0 : Conn))] : Reg).filter (fun e => e.1 == "a")).length ≤ 1 ∧
    onMessage [("a", 0)] 1 (regFrame "a") =
      Except.ok ([("a", 0)], { sends := [], closes := [1] }) := by
  constructor
  · exact c1_uniqueness_and_collision.1
      { reg := [("a", 0)], accepted := [0], closed := [] }
      ⟨[Event.accept 0, Event.msg 0 (regFrame "a")], by decide, by decide⟩ "a"
  · exact c1_uniqueness_and_collision.2 [("a", 0)] 1 _ (regPayload "a") "a" 0
      rfl rfl rfl rfl rfl

/-- C2: a signal envelope between two registered identifiers is forwarded,
as the unmodified payload value, to the target session and nowhere else;
the sender receives nothing. -/
theorem c2_forward_verbatim {reg : Reg} {cA cB : Conn} {p : Json} {s t : String}
    (hs : jsGet p "source" = some (Json.str s))
    (ht : jsGet p "target" = some (Json.str t))
    (hA : jsIndex reg s = JsProp.conn cA)
    (hB : jsIndex reg t = JsProp.conn cB) :
    handleSignalMessage reg cA p =
      Except.ok { sends := [(cB, p)], closes := [] } ∧
    (cA ≠ cB → ∀ m : Json, (cA, m) ∉ ([(cB, p)] : List (Conn × Json))) := by
  constructor
  · simp only [handleSignalMessage, hs, ht, jsStr, jsToString, hA, hB]
    simp
  · intro hne m hmem
    rw [List.mem_singleton] at hmem
    exact hne (congrArg Prod.fst hmem)

/-- C2 witness: with alice and bob registered, a signal from alice to bob is
delivered exactly once, to bob, as the original payload. -/
theorem c2_witness :
    handleSignalMessage [("a", 0), ("b", 1)] 0 (sigPayload "a" "b") =
      Except.ok { sends := [(1, sigPayload "a" "b")], closes := [] } ∧
    ((0 : Conn) ≠ 1 → ∀ m : Json,
      (0, m) ∉ ([(1, sigPayload "a" "b")] : List (Conn × Json))) :=
  c2_forward_verbatim rfl rfl rfl rfl

/-- C3: a signal envelope whose claimed source does not resolve to the
sending connection (unregistered sender, unbound source, or another
session) makes the server close the sender, send nothing, and leave the
registry unchanged. -/
theorem c3_identity_enforcement {reg : Reg} {c : Conn} {j p : Json}
    (hty : jsGet j "type" = some (Json.str "signal"))
    (hpl : jsGet j "payload" = some p)
    (htr : jsTruthy p = true)
    (hne : jsIndex reg (jsStr (jsGet p "source")) ≠ JsProp.conn c) :
    onMessage reg c (Frame.utf8 (some j)) =
      Except.ok (reg, { sends := [], closes := [c] }) := by
  cases j with
  | null => simp [jsGet] at hty
  | bool b => simp [jsGet] at hty
  | num n => simp [jsGet] at hty
  | str s2 => simp [jsGet] at hty
  | arr xs => simp [jsGet] at hty
  | obj fields =>
    simp only [onMessage, hty, hpl, htr, if_true]
    simp only [show (("signal" : String) == "register") = false from rfl,
      Bool.false_eq_true, if_false]
    simp only [show (("signal" : String) == "signal") = true from rfl, if_true]
    have hsig : handleSignalMessage reg c p =
        Except.ok { sends := [], closes := [c] } := by
      simp only [handleSignalMessage]
      rw [if_neg hne]
    rw [hsig]
    rfl

/-- C3 witness: an unregistered connection claiming a bound source is
closed without any forwarding. -/
theorem c3_witness :
    onMessage [("a", 0)] 1
        (Frame.utf8 (some (Json.obj [("type", Json.str "signal"),
          ("payload", sigPayload "a" "a")]))) =
      Except.ok ([("a", 0)], { sends := [], closes := [1] }) :=
  c3_identity_enforcement rfl rfl rfl (by decide)

/-- C4: evaluation of the signal handler at the failing input.  With alice
registered, an unknown plain target (ghost) is answered with exactly the
error envelope of the claim, but a target naming an inherited
Object.prototype property (toString) is truthy in `connections[target]`, so
the handler skips the unknown-target reply and throws a TypeError calling
`sendUTF` on the inherited function, sending nothing. -/
theorem c4_unknown_target_behavior :
    handleSignalMessage [("alice", 0)] 0 (sigPayload "alice" "ghost") =
      Except.ok { sends := [(0, Json.obj [("type", Json.str "error"),
        ("message", Json.str "Connection ghost unknown")])], closes := [] } ∧
    handleSignalMessage [("alice", 0)] 0 (sigPayload "alice" "toString") =
      Except.error JsError.typeError :=
  ⟨rfl, rfl⟩

/-- C5 counterexample: one connection registers a and then b; when it
closes, only a is deleted, so the identifier b it was registered under
survives the close, and a later registration of b by a fresh connection is
refused with a close instead of succeeding. -/
theorem c5_counterexample :
    Reachable { reg := [("a", 0), ("b", 0)], accepted := [0], closed := [] } ∧
    (stepState { reg := [("a", 0), ("b", 0)], accepted := [0], closed := [] }
        (Event.closeEv 0)).reg = [("b", 0)] ∧
    handleRegisterMessage [("b", 0)] 1 (regPayload "b") =
      Except.ok ([("b", 0)], { sends := [], closes := [1] }) := by
  refine ⟨⟨[Event.accept 0, Event.msg 0 (regFrame "a"),
    Event.msg 0 (regFrame "b")], by decide, by decide⟩, by decide, rfl⟩

/-- C5 as amended: when the closing connection is stored under exactly one
identifier, that identifier is removed by the close handling and a
subsequent registration of it by another connection succeeds. -/
theorem c5_amended_close_removes_single_binding {reg : Reg} {c c2 : Conn}
    {i : String} {p : Json}
    (hn : (reg.map Prod.fst).Nodup)
    (hm : (i, c) ∈ reg)
    (ho : ∀ e ∈ reg, e.2 = c → e.1 = i)
    (hp : i ∉ protoKeys)
    (hid : jsSlice5 (jsGet p "id") = Except.ok i) :
    onClose reg c = Except.ok (reg.eraseP (fun x => x.1 == i)) ∧
    (reg.eraseP (fun x => x.1 == i)).find? (fun e => e.1 == i) = none ∧
    handleRegisterMessage (reg.eraseP (fun x => x.1 == i)) c2 p =
      Except.ok (reg.eraseP (fun x => x.1 == i) ++ [(i, c2)], noOutput) := by
  obtain ⟨h1, h2⟩ := onClose_single hn hm ho
  exact ⟨h1, h2, register_success hid h2 hp⟩

/-- C5 witness: closing the sole registrant of a frees the identifier and a
new connection can take it. -/
theorem c5_witness :
    onClose [("a", 0)] 0 =
      Except.ok (([("a", 0)] : Reg).eraseP (fun x => x.1 == "a")) ∧
    (([("a", 0)] : Reg).eraseP (fun x => x.1 == "a")).find?
      (fun e => e.1 == "a") = none ∧
    handleRegisterMessage (([("a", 0)] : Reg).eraseP (fun x => x.1 == "a")) 1
        (regPayload "a") =
      Except.ok ((([("a", 0)] : Reg).eraseP (fun x => x.1 == "a")) ++ [("a", 1)],
        noOutput) :=
  c5_amended_close_removes_single_binding (by decide) (by decide)
    (by decide) (by decide) rfl

/-- C6 counterexample: after the double registration of the C5 scenario, the
reachable state with registry entry (b, connection 0) has connection 0
already closed, refuting the claim that every registry entry points at an
open transport. -/
theorem c6_counterexample :
    ¬ ∀ s : SState, Reachable s → ∀ e ∈ s.reg, e.2 ∉ s.closed := by
  intro h
  have hr : Reachable { reg := [("b", 0)], accepted := [0], closed := [0] } :=
    ⟨[Event.accept 0, Event.msg 0 (regFrame "a"), Event.msg 0 (regFrame "b"),
      Event.closeEv 0], by decide, by decide⟩
  exact h _ hr ("b", 0) (by simp) (by simp)

/-- C6 as amended: under the register-once discipline of section 4.5 of the
spec (a connection already stored in the registry sends no further register
envelope), every reachable registry has unique identifiers and each entry
points at a connection that is accepted and has not closed. -/
theorem c6_amended_registry_entries_open {s : SState} (h : ReachableOnce s) :
    (s.reg.map Prod.fst).Nodup ∧
    ∀ e ∈ s.reg, e.2 ∈ s.accepted ∧ e.2 ∉ s.closed := by
  obtain ⟨hk, -, ho⟩ := reachable_once_inv h
  exact ⟨hk, ho⟩

/-- C6 witness: the invariant evaluated at a concrete reachable state. -/
theorem c6_witness :
    (([("a", 0)] : Reg).map Prod.fst).Nodup ∧
    ∀ e ∈ ([("a", 0)] : Reg), e.2 ∈ [0] ∧ e.2 ∉ ([] : List Conn) :=
  @c6_amended_registry_entries_open
    { reg := [("a", 0)], accepted := [0], closed := [] }
    ⟨[Event.accept 0, Event.msg 0 (regFrame "a")], by decide, by decide⟩

/-- C7: evaluation at the failing inputs.  A text frame that is not valid
JSON makes JSON.parse throw (uncaught); a frame whose text parses to JSON
null throws destructuring it; a register envelope whose payload lacks an id
throws calling slice on undefined.  None of these is silently dropped. -/
theorem c7_malformed_frame_faults :
    onMessage [] 0 (Frame.utf8 none) = Except.error JsError.parseError ∧
    onMessage [] 0 (Frame.utf8 (some Json.null)) = Except.error JsError.typeError ∧
    onMessage [] 0 (Frame.utf8 (some (Json.obj [("type", Json.str "register"),
        ("payload", Json.obj [("foo", Json.num 1)])]))) =
      Except.error JsError.typeError :=
  ⟨rfl, rfl, rfl⟩

/-- C8: evaluation at the failing input.  When a connection that never
registered closes, `getIdFromConnection` destructures the undefined result
of find and throws a TypeError instead of being a logging-only no-op; the
registry is nevertheless left unchanged. -/
theorem c8_unregistered_close_faults :
    onClose ([] : Reg) 0 = Except.error JsError.typeError ∧
    onClose [("a", 0)] 1 = Except.error JsError.typeError ∧
    (stepState { reg := [("a", 0)], accepted := [0, 1], closed := [] }
        (Event.closeEv 1)).reg = [("a", 0)] :=
  ⟨rfl, rfl, rfl⟩

/-- C9 counterexample: a transport error on the registered connection alice
leaves the registry entry in place; the error handler performs no
deregistration. -/
theorem c9_counterexample :
    onError [("alice", 0)] 0 = Except.ok [("alice", 0)] ∧
    stepState { reg := [("alice", 0)], accepted := [0], closed := [] }
        (Event.errorEv 0) =
      { reg := [("alice", 0)], accepted := [0], closed := [] } :=
  ⟨rfl, rfl⟩

/-- C9 as amended: the error handler of a registered connection only logs,
raising no fault and leaving the registry unchanged; the identifier is
removed only when the transport subsequently delivers the close event,
whose handling deletes the (sole) binding of the connection. -/
theorem c9_amended_error_logs_only :
    (∀ (reg : Reg) (c : Conn), (∃ e ∈ reg, e.2 = c) →
      onError reg c = Except.ok reg) ∧
    (∀ (reg : Reg) (c : Conn) (i : String),
      (reg.map Prod.fst).Nodup → (i, c) ∈ reg →
      (∀ e ∈ reg, e.2 = c → e.1 = i) →
      onClose reg c = Except.ok (reg.eraseP (fun x => x.1 == i)) ∧
        (reg.eraseP (fun x => x.1 == i)).find? (fun e => e.1 == i) = none) := by
  constructor
  · intro reg c he
    obtain ⟨e, hem, hec⟩ := he
    obtain ⟨i, hg⟩ := getId_some_of_mem hem hec
    unfold onError
    rw [hg]
  · intro reg c i hn hm ho
    exact onClose_single hn hm ho

/-- C9 witness: both conjuncts evaluated on the one-entry registry. -/
theorem c9_witness :
    onError [("a", 0)] 0 = Except.ok [("a", 0)] ∧
    (onClose [("a", 0)] 0 =
        Except.ok (([("a", 0)] : Reg).eraseP (fun x => x.1 == "a")) ∧
      (([("a", 0)] : Reg).eraseP (fun x => x.1 == "a")).find?
        (fun e => e.1 == "a") = none) :=
  ⟨c9_amended_error_logs_only.1 [("a", 0)] 0 ⟨("a", 0), by simp, rfl⟩,
   c9_amended_error_logs_only.2 [("a", 0)] 0 "a" (by decide) (by decide)
     (by decide)⟩

/-- C10: registering with an identifier longer than five characters binds
the connection under the five-character prefix, and a later registration by
another connection with exactly that prefix collides and is closed. -/
theorem c10_truncated_registration_and_collision {reg : Reg} {c c2 : Conn}
    {p p2 : Json} {s : String}
    (h1 : jsGet p "id" = some (Json.str s))
    (h2 : 5 < s.length)
    (h3 : reg.find? (fun e => e.1 == String.mk (s.data.take 5)) = none)
    (h4 : jsGet p2 "id" = some (Json.str (String.mk (s.data.take 5)))) :
    handleRegisterMessage reg c p =
      Except.ok (reg ++ [(String.mk (s.data.take 5), c)], noOutput) ∧
    handleRegisterMessage (reg ++ [(String.mk (s.data.take 5), c)]) c2 p2 =
      Except.ok (reg ++ [(String.mk (s.data.take 5), c)],
        { sends := [], closes := [c2] }) := by
  have hslice : jsSlice5 (jsGet p "id") =
      Except.ok (String.mk (s.data.take 5)) := by
    rw [h1]
    rfl
  have hproto : String.mk (s.data.take 5) ∉ protoKeys :=
    short_not_proto (take5_length s)
  refine ⟨register_success hslice h3 hproto, ?_⟩
  have hslice2 : jsSlice5 (jsGet p2 "id") =
      Except.ok (String.mk (s.data.take 5)) := by
    rw [h4]
    show Except.ok (String.mk ((s.data.take 5).take 5)) = _
    rw [List.take_take, min_self]
  have hidx : jsIndex (reg ++ [(String.mk (s.data.take 5), c)])
      (String.mk (s.data.take 5)) = JsProp.conn c := by
    unfold jsIndex
    rw [List.find?_append, h3]
    simp
  exact register_collision hslice2 hidx

/-- C10 witness: abcdefgh is stored as abcde, and a later registration of
abcde by another connection is refused with a close. -/
theorem c10_witness :
    5 < ("abcdefgh" : String).length ∧
    handleRegisterMessage [] 0 (regPayload "abcdefgh") =
      Except.ok ([("abcde", 0)], noOutput) ∧
    handleRegisterMessage [("abcde", 0)] 1 (regPayload "abcde") =
      Except.ok ([("abcde", 0)], { sends := [], closes := [1] }) := by
  have h := @c10_truncated_registration_and_collision [] 0 1
    (regPayload "abcdefgh") (regPayload "abcde") "abcdefgh"
    rfl (by decide) rfl rfl
  exact ⟨by decide, h.1, h.2⟩
